import Mathlib

/-!
Shallow embedding of the deposit/withdrawal reconciliation engine of the
naffles-fund-management repository, together with proofs of the behavioural
properties stated in its specification.

Modelling conventions:
* Mongo collections are association lists or plain lists of records, newest
  insertion first (so `findOne` with a descending `createdAt` sort reads the
  head).
* Token-balance maps (`Map of String` fields holding base-unit integers
  encoded as strings via JS `BigInt`) are association lists from token symbol
  to `Int`; the string encoding of arbitrary-precision integers is a
  bijection, so `BigInt(m.get(k) || "0")` is `mget` and
  `m.set(k, v.toString())` is `setEntry`.
* The mongoose session of `depositTokens` / `withdrawTokens` is modelled by
  distinguishing writes issued with the session (staged, applied only at
  `commitTransaction`) from writes issued without it (applied immediately,
  surviving `abortTransaction`).  The helpers of `utils/helpers`
  (`updateTreasuryBalance`, `findOrCreateWalletBalance`,
  `updateUserWalletHistory`) take no session parameter, so their writes are
  direct; the Redis `setAsync` writes are likewise outside the transaction.
* Failures of individual steps are injected through an explicit `failAt`
  argument; `none` is the failure-free run.  Mongo ObjectId values (the
  `actionId` reference stored on history records) are not modelled.
-/

namespace FundManagement

/-! ### Association-list primitives for Map-of-String fields and Redis keys -/

/-- First-match lookup, the read half of a JS `Map` or of a Redis key space. -/
def getEntry {β : Type} : List (String × β) → String → Option β
  | [], _ => none
  | (k', v) :: rest, k => if k' = k then some v else getEntry rest k

/-- Overwrite-or-append, the write half of a JS `Map.set` / Redis `setAsync`. -/
def setEntry {β : Type} : List (String × β) → String → β → List (String × β)
  | [], k, v => [(k, v)]
  | (k', v') :: rest, k, v =>
    if k' = k then (k, v) :: rest else (k', v') :: setEntry rest k v

/-- Token-balance map: token symbol to base-unit amount. -/
abbrev BalMap := List (String × Int)

/-- Reading a balance entry: `BigInt(map.get(coinType) || "0")`. -/
def mget (m : BalMap) (k : String) : Int :=
  match getEntry m k with
  | some v => v
  | none => 0


/-! ### Ledger records (src/models) -/

/-- One document of the WalletAddress collection (src/models/user/walletAddress.js);
`address` carries a unique index, `userRef` is the owning user. -/
structure WalletAddressRec where
  address : String
  userRef : Nat
deriving DecidableEq

/-- One document of the Deposit collection (depositSchema in
src/models/transactions/withdraw.js): `transactionHash` carries a unique
index, `trackingNumber` the per-user sequence number. -/
structure DepositRec where
  userRef : Nat
  trackingNumber : Nat
  fromAddress : String
  amount : Int
  transactionHash : String
  coinType : String
  network : String
  blockNumber : Nat
deriving DecidableEq

/-- Status enum of withdrawSchema. -/
inductive WithdrawStatus
  | pending
  | approved
  | rejected
  | debitedInternally
deriving DecidableEq

/-- One document of the Withdraw collection (withdrawSchema in
src/models/transactions/withdraw.js). -/
structure WithdrawRec where
  userRef : Nat
  trackingNumber : Nat
  toAddress : String
  amount : Int
  transactionHash : Option String
  coinType : String
  status : WithdrawStatus
  network : String
  blockNumber : Option Nat
deriving DecidableEq

/-- One document of the WalletBalance collection
(src/models/user/walletBalance.js): available balances plus the
`fundingBalances` reserved for pending withdrawals. -/
structure WalletBalanceRec where
  userRef : Nat
  balances : BalMap
  fundingBalances : BalMap
deriving DecidableEq

/-- One document of UserDepositAndWithdrawHistory
(src/models/analytics/userDepositAndWithdrawHistory.js); the ObjectId
`actionId` reference is not modelled. -/
structure HistoryRec where
  userRef : Nat
  totalDepositedAmount : BalMap
  totalWithdrawnAmount : BalMap
deriving DecidableEq

/-- One document of the UnassociatedDeposit collection
(src/models/unassociatedDeposit.ts) as written by
DepositWorkflowService.handleDirectTransfer in src/services/alchemy.js. -/
structure UnassociatedDepositRec where
  txHash : String
  fromAddress : String
  toAddress : String
  amount : Int
  tokenSymbol : String
  tokenContract : String
  chainId : String
  blockNumber : Nat
  status : String
deriving DecidableEq

/-- The persistent state visible to the reconciliation engine: the Mongo
collections, the singleton Treasury document (`none` while not yet created),
and the Redis key space used for the until-signature scan cursors. -/
structure St where
  walletAddresses : List WalletAddressRec
  deposits : List DepositRec
  withdraws : List WithdrawRec
  treasury : Option BalMap
  walletBalances : List WalletBalanceRec
  histories : List HistoryRec
  unassociatedDeposits : List UnassociatedDepositRec
  redis : List (String × String)
deriving DecidableEq

/-- Treasury balance read used in statements: the balance map of the
singleton document, or 0 while the document does not exist. -/
def treasuryBal (s : St) (c : String) : Int :=
  match s.treasury with
  | some m => mget m c
  | none => 0

/-- Available balance of one user for one token (0 when the user has no
WalletBalance document). -/
def userBal (s : St) (u : Nat) (c : String) : Int :=
  match s.walletBalances.find? (fun wb => wb.userRef == u) with
  | some wb => mget wb.balances c
  | none => 0

/-- Reserved (funding) balance of one user for one token. -/
def userFunding (s : St) (u : Nat) (c : String) : Int :=
  match s.walletBalances.find? (fun wb => wb.userRef == u) with
  | some wb => mget wb.fundingBalances c
  | none => 0

/-! ### Helpers (src/unnamed/part_009, the utils/helpers module) -/

/-- `updateTreasuryBalance(coinType, amount, isDeposit)` from the helpers
module: reads the singleton Treasury (creating an empty-balances document via
`initializeTreasury` when absent), then for a deposit adds `amount`, for a
withdrawal clamps at zero (`currentBalance < amount ? 0 : currentBalance -
amount`).  The helper accepts no session parameter, so the controller call
sites pass a session that is silently dropped and the write is direct. -/
def updateTreasuryBalance (treasury : Option BalMap) (coinType : String)
    (amount : Int) (isDeposit : Bool) : BalMap :=
  let t : BalMap :=
    match treasury with
    | some t => t
    | none => []
  let currentBalance := mget t coinType
  let newBalance :=
    if isDeposit then currentBalance + amount
    else if currentBalance < amount then 0 else currentBalance - amount
  setEntry t coinType newBalance

/-- `findOrCreateWalletBalance(userRef)` from the helpers module: returns the
WalletBalance document of the user, creating and immediately saving an empty
one when absent (again with no session, hence a direct write). -/
def findOrCreateWalletBalance (l : List WalletBalanceRec) (userRef : Nat) :
    List WalletBalanceRec × WalletBalanceRec :=
  match l.find? (fun wb => wb.userRef == userRef) with
  | some wb => (l, wb)
  | none =>
    let wb : WalletBalanceRec := { userRef := userRef, balances := [], fundingBalances := [] }
    (wb :: l, wb)

/-- `updateUserWalletHistory(userRef, actionId, coinType, amount, isDeposit)`
from the helpers module: copies the cumulative totals of the latest history
document of the user, adds `amount` to the deposited or withdrawn total for
`coinType`, and appends the new document (direct write, no session). -/
def updateUserWalletHistory (histories : List HistoryRec) (userRef : Nat)
    (coinType : String) (amount : Int) (isDeposit : Bool) : List HistoryRec :=
  let lastHistory := histories.find? (fun h => h.userRef == userRef)
  let base : HistoryRec :=
    match lastHistory with
    | some lh =>
      { userRef := userRef
        totalDepositedAmount := lh.totalDepositedAmount
        totalWithdrawnAmount := lh.totalWithdrawnAmount }
    | none =>
      { userRef := userRef, totalDepositedAmount := [], totalWithdrawnAmount := [] }
  let newHistory : HistoryRec :=
    if isDeposit then
      { base with totalDepositedAmount := (setEntry base.totalDepositedAmount coinType (mget base.totalDepositedAmount coinType + amount)) }
    else
      { base with totalWithdrawnAmount := (setEntry base.totalWithdrawnAmount coinType (mget base.totalWithdrawnAmount coinType + amount)) }
  newHistory :: histories

/-! ### Tracking numbers (depositSchema pre-validate hook,
src/models/transactions/withdraw.js) -/

/-- Tracking number of the result of
`findOne({userRef}).sort({trackingNumber: -1})`: the maximum tracking number
among the deposits of the user, `none` when the user has no deposit. -/
def maxTracking : List DepositRec → Nat → Option Nat
  | [], _ => none
  | d :: rest, u =>
    let r := maxTracking rest u
    if d.userRef == u then
      match r with
      | none => some d.trackingNumber
      | some t => some (max d.trackingNumber t)
    else r

/-- The pre-validate hook of depositSchema: last tracking number of the user
plus one, or `countDocuments({userRef}) + 1` when no prior deposit exists.
The hook issues its reads outside any session or lock. -/
def assignTrackingNumber (deposits : List DepositRec) (userRef : Nat) : Nat :=
  match maxTracking deposits userRef with
  | some t => t + 1
  | none => (deposits.filter (fun d => d.userRef == userRef)).length + 1

/-! ### The controller operations (src/controllers/userController.js) -/

/-- The `(toLowerCase coin)Case()` normalization applied by both controller
operations (per-character ASCII lowering, which is what the token tickers of
this system exercise). -/
def toLowerCase (s : String) : String :=
  String.mk (s.data.map Char.toLower)

/-- Names of the fallible steps of `depositTokens`, in execution order. -/
inductive DepStep
  | walletLookup
  | dupCheck
  | saveDeposit
  | treasurySave
  | wbFind
  | wbSave
  | historySave
  | cursorSet
  | commitTx
deriving DecidableEq

/-- Observable outcome of a `depositTokens` run (the promise always
resolves; errors are caught and logged). -/
inductive DepOutcome
  | noUser
  | duplicate
  | ok
  | error
deriving DecidableEq

/-- The Redis key `solanaServerAddressUntilSignature:${target}` used as the
per-address until-signature scan cursor. -/
def untilSignatureKey (target : String) : String :=
  "solanaServerAddressUntilSignature:" ++ target

/-- Replacing the document of the same user by the mutated copy, the effect
of `walletBalance.save` once the session commits. -/
def saveWalletBalance (l : List WalletBalanceRec) (wb : WalletBalanceRec) :
    List WalletBalanceRec :=
  l.map (fun x => if x.userRef == wb.userRef then wb else x)

/-- `depositTokens(coin, address, amount, txHash, network, blockNumber,
targetAddressForUntilSignature)`.  Writes issued with the session (the new
Deposit document and the mutated WalletBalance document) are applied only in
the final commit step; the helper writes (treasury, wallet-balance creation,
history) and the Redis cursor write are direct and survive an abort.  A step
named by `failAt` throws, aborting the transaction. -/
def depositTokens (coin address : String) (amount : Int) (txHash network : String)
    (blockNumber : Nat) (targetAddressForUntilSignature : String)
    (s : St) (failAt : Option DepStep) : St × DepOutcome :=
  let coinType := (toLowerCase coin)
  if failAt = some .walletLookup then (s, .error) else
  match s.walletAddresses.find? (fun w => w.address == address) with
  | none => (s, .noUser)
  | some wallet =>
    if failAt = some .dupCheck then (s, .error) else
    if s.deposits.any (fun d => d.transactionHash == txHash) then
      if failAt = some .cursorSet then (s, .error) else
      ({ s with redis := setEntry s.redis (untilSignatureKey targetAddressForUntilSignature) txHash },
        .duplicate)
    else
    if failAt = some .saveDeposit then (s, .error) else
    let newDepositTransaction : DepositRec :=
      { userRef := wallet.userRef
        trackingNumber := assignTrackingNumber s.deposits wallet.userRef
        fromAddress := address
        amount := amount
        transactionHash := txHash
        coinType := coinType
        network := network
        blockNumber := blockNumber }
    if failAt = some .treasurySave then (s, .error) else
    let s1 := { s with treasury := some (updateTreasuryBalance s.treasury coinType amount true) }
    if failAt = some .wbFind then (s1, .error) else
    let fc := findOrCreateWalletBalance s1.walletBalances wallet.userRef
    let s2 := { s1 with walletBalances := fc.1 }
    let walletBalance := fc.2
    let updatedBalance := mget walletBalance.balances coinType + amount
    let wb := { walletBalance with balances := setEntry walletBalance.balances coinType updatedBalance }
    if failAt = some .wbSave then (s2, .error) else
    if failAt = some .historySave then (s2, .error) else
    let s3 := { s2 with histories := updateUserWalletHistory s2.histories wallet.userRef coinType amount true }
    if failAt = some .cursorSet then (s3, .error) else
    let s4 := { s3 with redis := setEntry s3.redis (untilSignatureKey targetAddressForUntilSignature) txHash }
    if failAt = some .commitTx then (s4, .error) else
    ({ s4 with deposits := newDepositTransaction :: s4.deposits
               walletBalances := saveWalletBalance s4.walletBalances wb },
      .ok)

/-- Names of the fallible steps of `withdrawTokens`, in execution order. -/
inductive WdStep
  | walletLookup
  | pendingLookup
  | treasurySave
  | wbFind
  | wbSave
  | historySave
  | wdSave
  | cursorSet
  | commitTx
deriving DecidableEq

/-- Observable outcome of a `withdrawTokens` run. -/
inductive WdOutcome
  | noUser
  | noPending
  | ok
  | error
deriving DecidableEq

/-- The pending-withdrawal query of `withdrawTokens`:
`Withdraw.findOne({userRef, status: pending, network, amount, coinType})`
with the exact amount. -/
def pendingMatch (userRef : Nat) (network : String) (amount : Int)
    (coinType : String) (w : WithdrawRec) : Bool :=
  w.userRef == userRef && w.status == .pending && w.network == network &&
    w.amount == amount && w.coinType == coinType

/-- Replacing the first document matched by the pending query with its
mutated copy, the effect of `withdrawDocument.save` at commit. -/
def saveMatchedWithdraw : List WithdrawRec → (WithdrawRec → Bool) → WithdrawRec → List WithdrawRec
  | [], _, _ => []
  | w :: rest, p, w' => if p w then w' :: rest else w :: saveMatchedWithdraw rest p w'

/-- `withdrawTokens(coin, address, amount, txHash, network, blockNumber,
targetAddressForUntilSignature)`: recognizes an outgoing transfer only as the
fulfilment of a pending Withdraw document of the resolved user with the exact
amount, token and network; otherwise it only rewrites the cursor key and
aborts.  Session handling mirrors `depositTokens`. -/
def withdrawTokens (coin address : String) (amount : Int) (txHash network : String)
    (blockNumber : Nat) (targetAddressForUntilSignature : String)
    (s : St) (failAt : Option WdStep) : St × WdOutcome :=
  let coinType := (toLowerCase coin)
  if failAt = some .walletLookup then (s, .error) else
  match s.walletAddresses.find? (fun w => w.address == address) with
  | none => (s, .noUser)
  | some wallet =>
    if failAt = some .pendingLookup then (s, .error) else
    match s.withdraws.find? (pendingMatch wallet.userRef network amount coinType) with
    | none =>
      if failAt = some .cursorSet then (s, .error) else
      ({ s with redis := setEntry s.redis (untilSignatureKey targetAddressForUntilSignature) txHash },
        .noPending)
    | some withdrawDocument =>
      if failAt = some .treasurySave then (s, .error) else
      let s1 := { s with treasury := some (updateTreasuryBalance s.treasury coinType amount false) }
      if failAt = some .wbFind then (s1, .error) else
      let fc := findOrCreateWalletBalance s1.walletBalances wallet.userRef
      let s2 := { s1 with walletBalances := fc.1 }
      let walletBalance := fc.2
      let currentFundingBalance := mget walletBalance.fundingBalances coinType
      let updatedFundingBalance :=
        if currentFundingBalance < amount then 0 else currentFundingBalance - amount
      let wb := { walletBalance with fundingBalances := setEntry walletBalance.fundingBalances coinType updatedFundingBalance }
      if failAt = some .wbSave then (s2, .error) else
      if failAt = some .historySave then (s2, .error) else
      let s3 := { s2 with histories := updateUserWalletHistory s2.histories wallet.userRef coinType amount false }
      if failAt = some .wdSave then (s3, .error) else
      let approvedDocument :=
        { withdrawDocument with
            status := WithdrawStatus.approved
            transactionHash := some txHash
            blockNumber := some blockNumber }
      if failAt = some .cursorSet then (s3, .error) else
      let s4 := { s3 with redis := setEntry s3.redis (untilSignatureKey targetAddressForUntilSignature) txHash }
      if failAt = some .commitTx then (s4, .error) else
      ({ s4 with walletBalances := saveWalletBalance s4.walletBalances wb
                 withdraws := saveMatchedWithdraw s4.withdraws
                   (pendingMatch wallet.userRef network amount coinType) approvedDocument },
        .ok)

/-! ### Classification (src/services/solana.js and src/services/alchemy.js) -/

/-- Direction decided by the classifiers, with the resolved counterparty. -/
inductive TransferAction
  | deposit (counterparty : String)
  | withdraw (counterparty : String)
deriving DecidableEq

/-- Classification decision of `handleParsedTransaction` in
src/services/solana.js: `to === monitoredAddressStr` gives a deposit with
counterparty `from`, otherwise `from === monitoredAddressStr` gives a
withdrawal with counterparty `to`, otherwise nothing.  For SPL transfers the
counterparty is further resolved to the owner of the token account; that
external lookup does not influence which branch is taken. -/
def handleParsedTransaction (source destination monitoredAddressStr : String) :
    Option TransferAction :=
  if destination = monitoredAddressStr then some (.deposit source)
  else if source = monitoredAddressStr then some (.withdraw destination)
  else none

/-- The `actionType` expression of `getUserTransfers` in
src/services/alchemy.js: `transfer.to && transfer.to.toLowerCase() ===
address.toLowerCase() ? deposit : withdraw`. -/
def alchemyActionType (transferTo : Option String) (address : String) : String :=
  match transferTo with
  | some t => if toLowerCase t = toLowerCase address then "deposit" else "withdraw"
  | none => "withdraw"

/-! ### Direct-transfer workflow (DepositWorkflowService.handleDirectTransfer,
second part of src/services/alchemy.js) -/

/-- One document of the PendingDeposit collection, restricted to the fields
the direct-transfer workflow reads. -/
structure PendingDepositRec where
  actualTxHash : Option String
  status : String
deriving DecidableEq

/-- `handleDirectTransfer` of DepositWorkflowService: when the transaction
hash matches a signed or initiated PendingDeposit the transfer is handled by
the pending-deposit flow; otherwise an UnassociatedDeposit document with
status `detected` is inserted.  Returns the unassociated-deposit collection
after the call; no balance is touched on either path. -/
def handleDirectTransfer (pendingDeposits : List PendingDepositRec)
    (unassociatedDeposits : List UnassociatedDepositRec)
    (txHash fromAddress toAddress : String) (amount : Int)
    (tokenContract tokenSymbol chainId : String) (blockNumber : Nat) :
    List UnassociatedDepositRec :=
  match pendingDeposits.find?
      (fun p => p.actualTxHash == some txHash && (p.status == "signed" || p.status == "initiated")) with
  | some _ => unassociatedDeposits
  | none =>
    ({ txHash := txHash
       fromAddress := fromAddress
       toAddress := toAddress
       amount := amount
       tokenSymbol := tokenSymbol
       tokenContract := tokenContract
       chainId := chainId
       blockNumber := blockNumber
       status := "detected" } : UnassociatedDepositRec) :: unassociatedDeposits

/-! ### Concurrent deposit insertion (races of the pre-validate hook) -/

/-- A deposit before the pre-validate hook has assigned its tracking
number. -/
structure DepositDraft where
  userRef : Nat
  fromAddress : String
  amount : Int
  transactionHash : String
  coinType : String
  network : String
  blockNumber : Nat
deriving DecidableEq

/-- Completing a draft with the tracking number chosen by the hook. -/
def mkDeposit (d : DepositDraft) (tn : Nat) : DepositRec :=
  { userRef := d.userRef
    trackingNumber := tn
    fromAddress := d.fromAddress
    amount := d.amount
    transactionHash := d.transactionHash
    coinType := d.coinType
    network := d.network
    blockNumber := d.blockNumber }

/-- Interleaved execution of two concurrent deposit saves: the pre-validate
hook of depositSchema reads the collection with plain queries, outside any
session or lock, so both hooks can observe the same collection state before
either insert becomes visible.  No unique index exists on
(userRef, trackingNumber). -/
def concurrentDepositInsert (deposits : List DepositRec) (d1 d2 : DepositDraft) :
    List DepositRec :=
  let t1 := assignTrackingNumber deposits d1.userRef
  let t2 := assignTrackingNumber deposits d2.userRef
  mkDeposit d2 t2 :: mkDeposit d1 t1 :: deposits

/-! ### Solana catch-up scan (src/services/solana.js) -/

/-- One element of the `getSignaturesForAddress` answer: signature, slot and
confirmation status. -/
structure SigInfo where
  signature : String
  slot : Nat
  confirmationStatus : String
deriving DecidableEq

/-- Entries strictly older than the `before` signature (the RPC pages
backward in time; the chain list is newest first). -/
def sigAfter (chain : List SigInfo) : Option String → List SigInfo
  | none => chain
  | some b => (chain.dropWhile (fun x => x.signature != b)).drop 1

/-- Entries strictly newer than the `until` signature. -/
def sigUpTo (chain : List SigInfo) : Option String → List SigInfo
  | none => chain
  | some u => chain.takeWhile (fun x => x.signature != u)

/-- Model of `connection.getSignaturesForAddress(address, {limit, before,
until})`: at most `limit` entries, newest first, strictly between the
`before` and `until` signatures. -/
def getSignaturesForAddress (chain : List SigInfo) (before untilSig : Option String)
    (limit : Nat) : List SigInfo :=
  (sigUpTo (sigAfter chain before) untilSig).take limit

/-- The paging loop of `getAllSignatures`: fetch a page of 1000, stop on an
empty page, otherwise append it, move `beforeSignature` to the last entry of
the page and continue while the page was full.  The JS loop is unbounded;
the fuel argument dominates the number of pages. -/
def getAllSignaturesLoop (chain : List SigInfo) (untilSig : Option String) :
    Nat → List SigInfo → Option String → List SigInfo
  | 0, allSignatures, _ => allSignatures
  | fuel + 1, allSignatures, beforeSignature =>
    let signatures := getSignaturesForAddress chain beforeSignature untilSig 1000
    if signatures.length = 0 then allSignatures
    else
      let acc := allSignatures ++ signatures
      if signatures.length < 1000 then acc
      else
        getAllSignaturesLoop chain untilSig fuel acc
          (some (signatures.getLastD { signature := "", slot := 0, confirmationStatus := "" }).signature)

/-- `getAllSignatures(connection, address)`: page backward from now, bounded
by the persisted until-signature cursor, then reverse, so the result is
oldest first. -/
def getAllSignatures (chain : List SigInfo) (untilSig : Option String) : List SigInfo :=
  (getAllSignaturesLoop chain untilSig (chain.length + 1) [] none).reverse

/-- Confirmation statuses accepted by `processAllTransactions`. -/
def validConfirmationStatus : List String := ["confirmed", "finalized"]

/-- The order in which `processAllTransactions` hands transfers to
`processTransactionV2` (and hence to the engine): the `getAllSignatures`
answer filtered to confirmed or finalized entries, in list order. -/
def processAllTransactions (chain : List SigInfo) (untilSig : Option String) :
    List SigInfo :=
  (getAllSignatures chain untilSig).filter
    (fun l => validConfirmationStatus.contains l.confirmationStatus)

/-! ### Invariant vocabulary used by the theorems -/

/-- Maps all of whose entries are non-negative (reads of absent keys give 0). -/
def balNonNeg (m : BalMap) : Prop := ∀ k, 0 ≤ mget m k

/-- Non-negativity of the singleton Treasury document (vacuous while the
document does not exist). -/
def treasuryNonNeg : Option BalMap → Prop
  | some m => balNonNeg m
  | none => True

/-- Non-negativity of every WalletBalance document, available and funding. -/
def wbsNonNeg (l : List WalletBalanceRec) : Prop :=
  ∀ wb ∈ l, balNonNeg wb.balances ∧ balNonNeg wb.fundingBalances

/-- All token balances of the state are non-negative. -/
def stBalancesNonNeg (s : St) : Prop :=
  treasuryNonNeg s.treasury ∧ wbsNonNeg s.walletBalances

/-- Every deposit of the user has tracking number strictly below `tn`. -/
def userTrackingLt (deposits : List DepositRec) (u tn : Nat) : Prop :=
  ∀ d ∈ deposits, d.userRef = u → d.trackingNumber < tn

/-! ### Concrete inputs used by the closed witnesses and counterexamples -/

/-- A state with one registered wallet, a funded treasury and one funded
user balance. -/
def stC1 : St :=
  { walletAddresses := [{ address := "addr1", userRef := 7 }]
    deposits := []
    withdraws := []
    treasury := some [("sol", 3)]
    walletBalances := [{ userRef := 7, balances := [("sol", 100)], fundingBalances := [] }]
    histories := []
    unassociatedDeposits := []
    redis := [] }

/-- A state with one registered wallet and an empty ledger. -/
def stC4 : St :=
  { walletAddresses := [{ address := "addr2", userRef := 3 }]
    deposits := []
    withdraws := []
    treasury := some []
    walletBalances := []
    histories := []
    unassociatedDeposits := []
    redis := [] }

/-- A state with a wallet, a funded treasury, a funded funding balance and
one matching pending withdrawal. -/
def stC6 : St :=
  { walletAddresses := [{ address := "addr6", userRef := 4 }]
    deposits := []
    withdraws := [{ userRef := 4, trackingNumber := 1, toAddress := "addr6", amount := 30, transactionHash := none, coinType := "sol", status := WithdrawStatus.pending, network := "solana", blockNumber := none }]
    treasury := some [("sol", 10)]
    walletBalances := [{ userRef := 4, balances := [], fundingBalances := [("sol", 20)] }]
    histories := []
    unassociatedDeposits := []
    redis := [] }

/-- A state in which the monitored treasury address itself is registered as
a user wallet. -/
def stC7 : St :=
  { walletAddresses := [{ address := "tre", userRef := 9 }]
    deposits := []
    withdraws := []
    treasury := none
    walletBalances := []
    histories := []
    unassociatedDeposits := []
    redis := [] }

/-- A state with no registered wallet at all. -/
def stC8 : St :=
  { walletAddresses := []
    deposits := []
    withdraws := []
    treasury := some [("sol", 3)]
    walletBalances := []
    histories := []
    unassociatedDeposits := []
    redis := [] }

/-- A state that already contains a deposit with hash `dup1`. -/
def stC10 : St :=
  { walletAddresses := [{ address := "addr1", userRef := 7 }]
    deposits := [{ userRef := 7, trackingNumber := 1, fromAddress := "addr1", amount := 2, transactionHash := "dup1", coinType := "sol", network := "solana", blockNumber := 1 }]
    withdraws := []
    treasury := some [("sol", 2)]
    walletBalances := []
    histories := []
    unassociatedDeposits := []
    redis := [("solanaServerAddressUntilSignature:tgt", "old")] }

/-- A three-signature chain answer, newest first. -/
def chainC9 : List SigInfo :=
  [{ signature := "c", slot := 3, confirmationStatus := "confirmed" },
   { signature := "b", slot := 2, confirmationStatus := "finalized" },
   { signature := "a", slot := 1, confirmationStatus := "confirmed" }]

/-! # Theorems -/

/-! ### Association-list lemmas -/

@[simp] theorem getEntry_setEntry_self {β : Type} (m : List (String × β)) (k : String) (v : β) :
    getEntry (setEntry m k v) k = some v := by
  induction m with
  | nil => simp [setEntry, getEntry]
  | cons p rest ih =>
    obtain ⟨k', v'⟩ := p
    by_cases h : k' = k <;> simp [setEntry, getEntry, h, ih]

theorem getEntry_setEntry_ne {β : Type} (m : List (String × β)) (k k' : String) (v : β)
    (h : k' ≠ k) : getEntry (setEntry m k v) k' = getEntry m k' := by
  induction m with
  | nil => simp [setEntry, getEntry, Ne.symm h]
  | cons p rest ih =>
    obtain ⟨k₀, v₀⟩ := p
    by_cases h₀ : k₀ = k
    · subst h₀
      simp [setEntry, getEntry, Ne.symm h]
    · simp [setEntry, getEntry, h₀, ih]

@[simp] theorem mget_setEntry_self (m : BalMap) (k : String) (v : Int) :
    mget (setEntry m k v) k = v := by
  simp [mget]

theorem mget_setEntry_ne (m : BalMap) (k k' : String) (v : Int) (h : k' ≠ k) :
    mget (setEntry m k v) k' = mget m k' := by
  simp [mget, getEntry_setEntry_ne m k k' v h]

/-- Writing the same key-value pair twice is the same as writing it once. -/
theorem setEntry_setEntry_self {β : Type} (m : List (String × β)) (k : String) (v : β) :
    setEntry (setEntry m k v) k v = setEntry m k v := by
  induction m with
  | nil => simp [setEntry]
  | cons p rest ih =>
    obtain ⟨k', v'⟩ := p
    by_cases h : k' = k <;> simp [setEntry, h, ih]

theorem balNonNeg_nil : balNonNeg [] := by
  intro k; simp [balNonNeg, mget, getEntry]

theorem balNonNeg_setEntry {m : BalMap} {v : Int} (hm : balNonNeg m) (k : String)
    (hv : 0 ≤ v) : balNonNeg (setEntry m k v) := by
  intro k'
  by_cases h : k' = k
  · subst h; simpa using hv
  · rw [mget_setEntry_ne m k k' v h]; exact hm k'

/-! ### Path lemmas for the controller operations -/

theorem depositTokens_noUser (coin address : String) (amount : Int) (txHash network : String)
    (bn : Nat) (target : String) (s : St)
    (hw : s.walletAddresses.find? (fun w => w.address == address) = none) :
    depositTokens coin address amount txHash network bn target s none = (s, .noUser) := by
  simp [depositTokens, hw]

theorem depositTokens_duplicate (coin address : String) (amount : Int) (txHash network : String)
    (bn : Nat) (target : String) (s : St) (wallet : WalletAddressRec)
    (hw : s.walletAddresses.find? (fun w => w.address == address) = some wallet)
    (hd : s.deposits.any (fun d => d.transactionHash == txHash) = true) :
    depositTokens coin address amount txHash network bn target s none =
      ({ s with redis := setEntry s.redis (untilSignatureKey target) txHash }, .duplicate) := by
  simp [depositTokens, hw, hd]

theorem depositTokens_ok (coin address : String) (amount : Int) (txHash network : String)
    (bn : Nat) (target : String) (s : St) (wallet : WalletAddressRec)
    (hw : s.walletAddresses.find? (fun w => w.address == address) = some wallet)
    (hd : s.deposits.any (fun d => d.transactionHash == txHash) = false) :
    depositTokens coin address amount txHash network bn target s none =
      ({ s with
          deposits := ({ userRef := wallet.userRef, trackingNumber := assignTrackingNumber s.deposits wallet.userRef, fromAddress := address, amount := amount, transactionHash := txHash, coinType := (toLowerCase coin), network := network, blockNumber := bn } : DepositRec) :: s.deposits
          treasury := some (updateTreasuryBalance s.treasury (toLowerCase coin) amount true)
          walletBalances := (saveWalletBalance (findOrCreateWalletBalance s.walletBalances wallet.userRef).1 { (findOrCreateWalletBalance s.walletBalances wallet.userRef).2 with balances := (setEntry (findOrCreateWalletBalance s.walletBalances wallet.userRef).2.balances (toLowerCase coin) (mget (findOrCreateWalletBalance s.walletBalances wallet.userRef).2.balances (toLowerCase coin) + amount)) })
          histories := updateUserWalletHistory s.histories wallet.userRef (toLowerCase coin) amount true
          redis := setEntry s.redis (untilSignatureKey target) txHash }, .ok) := by
  simp [depositTokens, hw, hd]

theorem withdrawTokens_noPending (coin address : String) (amount : Int) (txHash network : String)
    (bn : Nat) (target : String) (s : St) (wallet : WalletAddressRec)
    (hw : s.walletAddresses.find? (fun w => w.address == address) = some wallet)
    (hp : s.withdraws.find? (pendingMatch wallet.userRef network amount (toLowerCase coin)) = none) :
    withdrawTokens coin address amount txHash network bn target s none =
      ({ s with redis := setEntry s.redis (untilSignatureKey target) txHash }, .noPending) := by
  simp [withdrawTokens, hw, hp]

theorem withdrawTokens_ok (coin address : String) (amount : Int) (txHash network : String)
    (bn : Nat) (target : String) (s : St) (wallet : WalletAddressRec) (wd : WithdrawRec)
    (hw : s.walletAddresses.find? (fun w => w.address == address) = some wallet)
    (hp : s.withdraws.find? (pendingMatch wallet.userRef network amount (toLowerCase coin)) = some wd) :
    withdrawTokens coin address amount txHash network bn target s none =
      ({ s with
          treasury := some (updateTreasuryBalance s.treasury (toLowerCase coin) amount false)
          walletBalances := (saveWalletBalance (findOrCreateWalletBalance s.walletBalances wallet.userRef).1 { (findOrCreateWalletBalance s.walletBalances wallet.userRef).2 with fundingBalances := (setEntry (findOrCreateWalletBalance s.walletBalances wallet.userRef).2.fundingBalances (toLowerCase coin) (if mget (findOrCreateWalletBalance s.walletBalances wallet.userRef).2.fundingBalances (toLowerCase coin) < amount then 0 else mget (findOrCreateWalletBalance s.walletBalances wallet.userRef).2.fundingBalances (toLowerCase coin) - amount)) })
          histories := updateUserWalletHistory s.histories wallet.userRef (toLowerCase coin) amount false
          withdraws := saveMatchedWithdraw s.withdraws (pendingMatch wallet.userRef network amount (toLowerCase coin)) { wd with status := WithdrawStatus.approved, transactionHash := some txHash, blockNumber := some bn }
          redis := setEntry s.redis (untilSignatureKey target) txHash }, .ok) := by
  simp [withdrawTokens, hw, hp]

/-! ### Wallet-balance bookkeeping lemmas -/

theorem findOrCreate_userRef (l : List WalletBalanceRec) (u : Nat) :
    (findOrCreateWalletBalance l u).2.userRef = u := by
  unfold findOrCreateWalletBalance
  cases hf : l.find? (fun wb => wb.userRef == u) with
  | some wb => simpa using List.find?_some hf
  | none => rfl

theorem findOrCreate_mem (l : List WalletBalanceRec) (u : Nat) :
    ∃ x ∈ (findOrCreateWalletBalance l u).1, x.userRef = u := by
  unfold findOrCreateWalletBalance
  cases hf : l.find? (fun wb => wb.userRef == u) with
  | some wb =>
    exact ⟨wb, List.mem_of_find?_eq_some hf, by simpa using List.find?_some hf⟩
  | none => exact ⟨_, List.mem_cons_self _ _, rfl⟩

theorem find?_saveWalletBalance (l : List WalletBalanceRec) (wb : WalletBalanceRec)
    (hex : ∃ x ∈ l, x.userRef = wb.userRef) :
    (saveWalletBalance l wb).find? (fun x => x.userRef == wb.userRef) = some wb := by
  induction l with
  | nil =>
    rcases hex with ⟨x, hx, _⟩
    cases hx
  | cons a t ih =>
    by_cases ha : a.userRef = wb.userRef
    · simp [saveWalletBalance, ha]
    · rcases hex with ⟨x, hx, hxu⟩
      rcases List.mem_cons.mp hx with rfl | hxt
      · exact absurd hxu ha
      · simpa [saveWalletBalance, ha] using ih ⟨x, hxt, hxu⟩

theorem findOrCreate_balances (s : St) (u : Nat) (c : String) :
    mget (findOrCreateWalletBalance s.walletBalances u).2.balances c = userBal s u c := by
  unfold findOrCreateWalletBalance userBal
  cases hf : s.walletBalances.find? (fun wb => wb.userRef == u) with
  | some wb => rfl
  | none => simp [mget, getEntry]

theorem findOrCreate_fundingBalances (s : St) (u : Nat) (c : String) :
    mget (findOrCreateWalletBalance s.walletBalances u).2.fundingBalances c = userFunding s u c := by
  unfold findOrCreateWalletBalance userFunding
  cases hf : s.walletBalances.find? (fun wb => wb.userRef == u) with
  | some wb => rfl
  | none => simp [mget, getEntry]

theorem mget_updateTreasuryBalance_deposit (s : St) (c : String) (a : Int) :
    mget (updateTreasuryBalance s.treasury c a true) c = treasuryBal s c + a := by
  unfold updateTreasuryBalance treasuryBal
  cases s.treasury with
  | some m => simp
  | none => simp [mget, getEntry]

theorem mget_updateTreasuryBalance_withdraw (s : St) (c : String) (a : Int) :
    mget (updateTreasuryBalance s.treasury c a false) c =
      (if treasuryBal s c < a then 0 else treasuryBal s c - a) := by
  unfold updateTreasuryBalance treasuryBal
  cases s.treasury with
  | some m => simp
  | none => simp [mget, getEntry]

/-! ### C1: deposit idempotency under duplicate delivery -/

/-- C1: for a deposit transfer whose counterparty resolves to a user and
whose transaction hash is new, applying `depositTokens` twice with the same
transaction hash leaves exactly one Deposit record carrying that hash, one
Treasury increment and one WalletBalance increment for the token; the second
application returns as a success-no-op and changes nothing at all. -/
theorem deposit_apply_twice_idempotent (coin address : String) (amount : Int)
    (txHash network : String) (bn : Nat) (target : String) (s : St)
    (wallet : WalletAddressRec)
    (hw : s.walletAddresses.find? (fun w => w.address == address) = some wallet)
    (hd : s.deposits.any (fun d => d.transactionHash == txHash) = false) :
    (depositTokens coin address amount txHash network bn target s none).2 = .ok ∧
    depositTokens coin address amount txHash network bn target
        (depositTokens coin address amount txHash network bn target s none).1 none =
      ((depositTokens coin address amount txHash network bn target s none).1, .duplicate) ∧
    ((depositTokens coin address amount txHash network bn target s none).1.deposits.filter
        (fun d => d.transactionHash == txHash)).length = 1 ∧
    treasuryBal (depositTokens coin address amount txHash network bn target s none).1 (toLowerCase coin)
      = treasuryBal s (toLowerCase coin) + amount ∧
    userBal (depositTokens coin address amount txHash network bn target s none).1 wallet.userRef (toLowerCase coin)
      = userBal s wallet.userRef (toLowerCase coin) + amount := by
  have hok := depositTokens_ok coin address amount txHash network bn target s wallet hw hd
  rw [hok]
  have hnil : s.deposits.filter (fun d => d.transactionHash == txHash) = [] := by
    rw [List.filter_eq_nil_iff]
    intro a ha
    exact List.any_eq_false.mp hd a ha
  refine ⟨rfl, ?_, ?_, ?_, ?_⟩
  · have hdup := depositTokens_duplicate coin address amount txHash network bn target
      ({ s with
          deposits := ({ userRef := wallet.userRef, trackingNumber := assignTrackingNumber s.deposits wallet.userRef, fromAddress := address, amount := amount, transactionHash := txHash, coinType := (toLowerCase coin), network := network, blockNumber := bn } : DepositRec) :: s.deposits
          treasury := some (updateTreasuryBalance s.treasury (toLowerCase coin) amount true)
          walletBalances := (saveWalletBalance (findOrCreateWalletBalance s.walletBalances wallet.userRef).1 { (findOrCreateWalletBalance s.walletBalances wallet.userRef).2 with balances := (setEntry (findOrCreateWalletBalance s.walletBalances wallet.userRef).2.balances (toLowerCase coin) (mget (findOrCreateWalletBalance s.walletBalances wallet.userRef).2.balances (toLowerCase coin) + amount)) })
          histories := updateUserWalletHistory s.histories wallet.userRef (toLowerCase coin) amount true
          redis := setEntry s.redis (untilSignatureKey target) txHash })
      wallet hw (by simp)
    rw [hdup, setEntry_setEntry_self]
  · simp [List.filter_cons, hnil]
  · simpa [treasuryBal] using mget_updateTreasuryBalance_deposit s (toLowerCase coin) amount
  · have huser : ((findOrCreateWalletBalance s.walletBalances wallet.userRef).2).userRef = wallet.userRef :=
      findOrCreate_userRef s.walletBalances wallet.userRef
    have hmem : ∃ x ∈ (findOrCreateWalletBalance s.walletBalances wallet.userRef).1,
        x.userRef = ({ (findOrCreateWalletBalance s.walletBalances wallet.userRef).2 with balances := (setEntry (findOrCreateWalletBalance s.walletBalances wallet.userRef).2.balances (toLowerCase coin) (mget (findOrCreateWalletBalance s.walletBalances wallet.userRef).2.balances (toLowerCase coin) + amount)) } : WalletBalanceRec).userRef := by
      simpa [huser] using findOrCreate_mem s.walletBalances wallet.userRef
    have hf := find?_saveWalletBalance _ _ hmem
    have hbal := findOrCreate_balances s wallet.userRef (toLowerCase coin)
    simp only [userBal] at hbal ⊢
    simp only [huser] at hf ⊢
    rw [hf]
    simp [hbal]

/-- Witness for C1 at a concrete deposit applied twice. -/
theorem deposit_apply_twice_idempotent_witness :
    (depositTokens "sol" "addr1" 1000000 "abc" "solana" 5 "tgt" stC1 none).2 = .ok ∧
    depositTokens "sol" "addr1" 1000000 "abc" "solana" 5 "tgt"
        (depositTokens "sol" "addr1" 1000000 "abc" "solana" 5 "tgt" stC1 none).1 none =
      ((depositTokens "sol" "addr1" 1000000 "abc" "solana" 5 "tgt" stC1 none).1, .duplicate) ∧
    ((depositTokens "sol" "addr1" 1000000 "abc" "solana" 5 "tgt" stC1 none).1.deposits.filter
        (fun d => d.transactionHash == "abc")).length = 1 ∧
    treasuryBal (depositTokens "sol" "addr1" 1000000 "abc" "solana" 5 "tgt" stC1 none).1 (toLowerCase "sol")
      = treasuryBal stC1 (toLowerCase "sol") + 1000000 ∧
    userBal (depositTokens "sol" "addr1" 1000000 "abc" "solana" 5 "tgt" stC1 none).1 7 (toLowerCase "sol")
      = userBal stC1 7 (toLowerCase "sol") + 1000000 :=
  deposit_apply_twice_idempotent "sol" "addr1" 1000000 "abc" "solana" 5 "tgt" stC1
    { address := "addr1", userRef := 7 } (by decide) (by decide)

/-! ### C3: withdrawals with no matching pending request are discarded -/

/-- C3: an incoming withdrawal transfer whose resolved user has no pending
Withdraw document matching status, network, token and exact amount leaves the
Treasury, every WalletBalance, the Withdraw and Deposit collections and the
history untouched, and resolves as a non-error no-op. -/
theorem withdraw_no_pending_discarded (coin address : String) (amount : Int)
    (txHash network : String) (bn : Nat) (target : String) (s : St)
    (wallet : WalletAddressRec)
    (hw : s.walletAddresses.find? (fun w => w.address == address) = some wallet)
    (hp : s.withdraws.find? (pendingMatch wallet.userRef network amount (toLowerCase coin)) = none) :
    (withdrawTokens coin address amount txHash network bn target s none).2 = .noPending ∧
    (withdrawTokens coin address amount txHash network bn target s none).1.treasury = s.treasury ∧
    (withdrawTokens coin address amount txHash network bn target s none).1.walletBalances = s.walletBalances ∧
    (withdrawTokens coin address amount txHash network bn target s none).1.withdraws = s.withdraws ∧
    (withdrawTokens coin address amount txHash network bn target s none).1.deposits = s.deposits ∧
    (withdrawTokens coin address amount txHash network bn target s none).1.histories = s.histories := by
  rw [withdrawTokens_noPending coin address amount txHash network bn target s wallet hw hp]
  exact ⟨rfl, rfl, rfl, rfl, rfl, rfl⟩

/-- Witness for C3: a 500-unit `eth` withdrawal transfer with no matching
pending record. -/
theorem withdraw_no_pending_discarded_witness :
    (withdrawTokens "eth" "addr1" 500 "wtx" "sepolia" 9 "tgt" stC1 none).2 = .noPending ∧
    (withdrawTokens "eth" "addr1" 500 "wtx" "sepolia" 9 "tgt" stC1 none).1.treasury = stC1.treasury ∧
    (withdrawTokens "eth" "addr1" 500 "wtx" "sepolia" 9 "tgt" stC1 none).1.walletBalances = stC1.walletBalances ∧
    (withdrawTokens "eth" "addr1" 500 "wtx" "sepolia" 9 "tgt" stC1 none).1.withdraws = stC1.withdraws ∧
    (withdrawTokens "eth" "addr1" 500 "wtx" "sepolia" 9 "tgt" stC1 none).1.deposits = stC1.deposits ∧
    (withdrawTokens "eth" "addr1" 500 "wtx" "sepolia" 9 "tgt" stC1 none).1.histories = stC1.histories :=
  withdraw_no_pending_discarded "eth" "addr1" 500 "wtx" "sepolia" 9 "tgt" stC1
    { address := "addr1", userRef := 7 } (by decide) (by decide)

/-! ### C10: the cursor key is overwritten even on the no-op paths -/

/-- C10: on both no-op paths — a deposit whose transaction hash already
exists and a withdrawal with no matching pending record — the controller
still overwrites the per-address until-signature key with the observed
transaction hash before aborting, and nothing else changes. -/
theorem cursor_overwritten_on_noop_paths (coin1 address1 : String) (amount1 : Int)
    (txHash1 network1 : String) (bn1 : Nat) (target1 : String) (s : St)
    (wallet1 : WalletAddressRec)
    (coin2 address2 : String) (amount2 : Int) (txHash2 network2 : String)
    (bn2 : Nat) (target2 : String) (t : St) (wallet2 : WalletAddressRec)
    (hw1 : s.walletAddresses.find? (fun w => w.address == address1) = some wallet1)
    (hd1 : s.deposits.any (fun d => d.transactionHash == txHash1) = true)
    (hw2 : t.walletAddresses.find? (fun w => w.address == address2) = some wallet2)
    (hp2 : t.withdraws.find? (pendingMatch wallet2.userRef network2 amount2 (toLowerCase coin2)) = none) :
    depositTokens coin1 address1 amount1 txHash1 network1 bn1 target1 s none =
      ({ s with redis := setEntry s.redis (untilSignatureKey target1) txHash1 }, .duplicate) ∧
    withdrawTokens coin2 address2 amount2 txHash2 network2 bn2 target2 t none =
      ({ t with redis := setEntry t.redis (untilSignatureKey target2) txHash2 }, .noPending) :=
  ⟨depositTokens_duplicate coin1 address1 amount1 txHash1 network1 bn1 target1 s wallet1 hw1 hd1,
   withdrawTokens_noPending coin2 address2 amount2 txHash2 network2 bn2 target2 t wallet2 hw2 hp2⟩

/-- Witness for C10 at concrete no-op inputs. -/
theorem cursor_overwritten_on_noop_paths_witness :
    depositTokens "sol" "addr1" 2 "dup1" "solana" 1 "tgt" stC10 none =
      ({ stC10 with redis := setEntry stC10.redis (untilSignatureKey "tgt") "dup1" }, .duplicate) ∧
    withdrawTokens "sol" "addr1" 5 "wtx" "solana" 2 "tgt" stC10 none =
      ({ stC10 with redis := setEntry stC10.redis (untilSignatureKey "tgt") "wtx" }, .noPending) :=
  cursor_overwritten_on_noop_paths "sol" "addr1" 2 "dup1" "solana" 1 "tgt" stC10
    { address := "addr1", userRef := 7 }
    "sol" "addr1" 5 "wtx" "solana" 2 "tgt" stC10
    { address := "addr1", userRef := 7 }
    (by decide) (by decide) (by decide) (by decide)

/-! ### C8: deposits from unknown counterparties -/

/-- Counterexample to C8 as stated: on a deposit whose counterparty address
resolves to no user, `depositTokens` stops with the state completely
unchanged — in particular the unassociated-deposit collection stays empty,
so no unassociated-deposit record is created on this path. -/
theorem unknown_counterparty_no_unassociated_record :
    depositTokens "sol" "nobody" 5 "tx1" "solana" 1 "tgt" stC8 none = (stC8, .noUser) ∧
    (depositTokens "sol" "nobody" 5 "tx1" "solana" 1 "tgt" stC8 none).1.unassociatedDeposits = [] := by
  exact ⟨by decide, by decide⟩

/-- C8 amended: on a deposit whose counterparty resolves to no user,
`depositTokens` stops with no mutation at all (no balance change, no Deposit
record, and also no unassociated-deposit record); unassociated-deposit
records are written only by the separate
`DepositWorkflowService.handleDirectTransfer` workflow, when a direct
transfer matches no signed or initiated pending deposit. -/
theorem unknown_counterparty_stops_and_direct_transfer_logs (coin address : String)
    (amount : Int) (txHash network : String) (bn : Nat) (target : String) (s : St)
    (hw : s.walletAddresses.find? (fun w => w.address == address) = none)
    (pend : List PendingDepositRec) (unas : List UnassociatedDepositRec)
    (tx f t : String) (amt : Int) (tc ts cid : String) (b : Nat)
    (hp : pend.find? (fun p => p.actualTxHash == some tx && (p.status == "signed" || p.status == "initiated")) = none) :
    depositTokens coin address amount txHash network bn target s none = (s, .noUser) ∧
    handleDirectTransfer pend unas tx f t amt tc ts cid b =
      ({ txHash := tx, fromAddress := f, toAddress := t, amount := amt, tokenSymbol := ts, tokenContract := tc, chainId := cid, blockNumber := b, status := "detected" } : UnassociatedDepositRec) :: unas :=
  ⟨depositTokens_noUser coin address amount txHash network bn target s hw,
   by simp [handleDirectTransfer, hp]⟩

/-- Witness for the amended C8 at concrete inputs. -/
theorem unknown_counterparty_stops_witness :
    depositTokens "sol" "nobody" 5 "tx1" "solana" 1 "tgt" stC8 none = (stC8, .noUser) ∧
    handleDirectTransfer [] [] "tx9" "from9" "to9" 11 "ct9" "sol" "solana" 3 =
      ({ txHash := "tx9", fromAddress := "from9", toAddress := "to9", amount := 11, tokenSymbol := "sol", tokenContract := "ct9", chainId := "solana", blockNumber := 3, status := "detected" } : UnassociatedDepositRec) :: [] :=
  unknown_counterparty_stops_and_direct_transfer_logs "sol" "nobody" 5 "tx1" "solana" 1 "tgt"
    stC8 (by decide) [] [] "tx9" "from9" "to9" 11 "ct9" "sol" "solana" 3 (by decide)

/-! ### C7: self-transfers -/

/-- Counterexample to C7 as stated: neither classifier discards a transfer
whose sender equals its recipient.  A self-transfer on the monitored address
is classified as a deposit whose counterparty is the monitored address
itself, on both the Solana and the EVM path, and when that address happens
to be registered as a user wallet the deposit is credited: a Deposit record
is created. -/
theorem self_transfer_classified_as_deposit :
    handleParsedTransaction "tre" "tre" "tre" = some (TransferAction.deposit "tre") ∧
    alchemyActionType (some "tre") "tre" = "deposit" ∧
    (depositTokens "sol" "tre" 5 "tx7" "solana" 1 "tre" stC7 none).2 = .ok ∧
    (depositTokens "sol" "tre" 5 "tx7" "solana" 1 "tre" stC7 none).1.deposits.length = 1 := by
  exact ⟨by decide, by simp [alchemyActionType], by decide, by decide⟩

/-- C7 amended: a self-transfer not involving the monitored address yields
no classification, but a self-transfer whose endpoints equal the monitored
address is classified as a deposit with the monitored address as
counterparty (the EVM classifier likewise labels it a deposit); it produces
no ledger effect only when that address resolves to no internal user. -/
theorem self_transfer_classification (a m : String) :
    handleParsedTransaction a a m = (if a = m then some (TransferAction.deposit a) else none) ∧
    alchemyActionType (some m) m = "deposit" := by
  constructor
  · by_cases h : a = m <;> simp [handleParsedTransaction, h]
  · simp [alchemyActionType]

/-! ### C5: tracking numbers -/

/-- Counterexample to C5 as stated: two deposits of the same user submitted
concurrently can both read the collection before either insert is visible,
so both pre-validate hooks assign tracking number 1 — the sequence is not
strictly increasing under concurrency. -/
theorem concurrent_deposits_duplicate_tracking :
    (concurrentDepositInsert []
        { userRef := 7, fromAddress := "a1", amount := 5, transactionHash := "h1", coinType := "sol", network := "solana", blockNumber := 1 }
        { userRef := 7, fromAddress := "a2", amount := 6, transactionHash := "h2", coinType := "sol", network := "solana", blockNumber := 2 }).map
      (fun d => d.trackingNumber) = [1, 1] := by decide

theorem maxTracking_none_of_filter_nil (l : List DepositRec) (u : Nat)
    (h : l.filter (fun d => d.userRef == u) = []) : maxTracking l u = none := by
  induction l with
  | nil => rfl
  | cons d t ih =>
    by_cases hd : d.userRef = u
    · simp [List.filter_cons, hd] at h
    · simp only [List.filter_cons] at h
      rw [if_neg (by simp [hd])] at h
      simp [maxTracking, hd, ih h]

theorem maxTracking_ge (l : List DepositRec) (u : Nat) (d : DepositRec)
    (hd : d ∈ l) (hu : d.userRef = u) :
    ∃ t, maxTracking l u = some t ∧ d.trackingNumber ≤ t := by
  induction l with
  | nil => cases hd
  | cons a rest ih =>
    rcases List.mem_cons.mp hd with rfl | hmem
    · cases hr : maxTracking rest u with
      | none => exact ⟨d.trackingNumber, by simp [maxTracking, hu, hr], le_refl _⟩
      | some t =>
        exact ⟨max d.trackingNumber t, by simp [maxTracking, hu, hr], le_max_left _ _⟩
    · by_cases ha : a.userRef = u
      · obtain ⟨t, ht, hle⟩ := ih hmem
        exact ⟨max a.trackingNumber t, by simp [maxTracking, ha, ht],
          le_trans hle (le_max_right _ _)⟩
      · obtain ⟨t, ht, hle⟩ := ih hmem
        exact ⟨t, by simp [maxTracking, ha, ht], hle⟩

/-- C5 amended: under sequential application the pre-validate hook is
correct — the first deposit of a user gets tracking number 1, and any later
deposit gets a tracking number strictly greater than every deposit of that
user already in the collection (prior maximum plus one); the guarantee does
not survive concurrent submission. -/
theorem tracking_number_sequential (deposits : List DepositRec) (u : Nat) :
    (deposits.filter (fun d => d.userRef == u) = [] → assignTrackingNumber deposits u = 1) ∧
    userTrackingLt deposits u (assignTrackingNumber deposits u) := by
  constructor
  · intro h
    simp [assignTrackingNumber, maxTracking_none_of_filter_nil deposits u h, h]
  · intro d hd hu
    obtain ⟨t, ht, hle⟩ := maxTracking_ge deposits u d hd hu
    simp only [assignTrackingNumber, ht]
    omega

/-- Witness for the amended C5: a user with no prior deposits receives 1. -/
theorem tracking_number_sequential_witness :
    assignTrackingNumber [] 7 = 1 ∧ userTrackingLt [] 7 (assignTrackingNumber [] 7) :=
  ⟨(tracking_number_sequential [] 7).1 rfl, (tracking_number_sequential [] 7).2⟩

/-! ### C2: the deposit steps are not atomic -/

/-- C2 fails on the code: the helpers called by `depositTokens` drop the
session the controller passes, so the Treasury write commits outside the
transaction.  When the wallet-balance save fails after the treasury update,
the abort leaves a persisted Treasury increment (3 becomes 8) with no
Deposit record and no WalletBalance change — an observable partial
application. -/
theorem deposit_partial_write_on_failure :
    depositTokens "sol" "addr1" 5 "tx1" "solana" 42 "tgt" stC1 (some DepStep.wbSave) =
      ({ stC1 with treasury := some [("sol", 8)] }, .error) ∧
    (depositTokens "sol" "addr1" 5 "tx1" "solana" 42 "tgt" stC1 (some DepStep.wbSave)).1.deposits = [] ∧
    treasuryBal (depositTokens "sol" "addr1" 5 "tx1" "solana" 42 "tgt" stC1 (some DepStep.wbSave)).1 "sol" = 8 ∧
    treasuryBal stC1 "sol" = 3 ∧
    (depositTokens "sol" "addr1" 5 "tx1" "solana" 42 "tgt" stC1 (some DepStep.wbSave)).1.walletBalances = stC1.walletBalances := by
  exact ⟨by decide, by decide, by decide, by decide, by decide⟩

/-! ### C4: the cursor is written before the commit -/

/-- Counterexample to C4 as stated: `setAsync` on the until-signature key
runs before `commitTransaction`, so a deposit whose commit fails still
leaves the cursor advanced to the observed transaction hash while the
Deposit record was rolled back. -/
theorem cursor_advanced_before_commit :
    (depositTokens "sol" "addr2" 5 "tx4" "solana" 11 "tgt4" stC4 (some DepStep.commitTx)).1.redis =
      [(untilSignatureKey "tgt4", "tx4")] ∧
    (depositTokens "sol" "addr2" 5 "tx4" "solana" 11 "tgt4" stC4 (some DepStep.commitTx)).1.deposits = [] ∧
    (depositTokens "sol" "addr2" 5 "tx4" "solana" 11 "tgt4" stC4 (some DepStep.commitTx)).2 = .error := by
  exact ⟨by decide, by decide, by decide⟩

theorem depositTokens_commitFail (coin address : String) (amount : Int)
    (txHash network : String) (bn : Nat) (target : String) (s : St)
    (wallet : WalletAddressRec)
    (hw : s.walletAddresses.find? (fun w => w.address == address) = some wallet)
    (hd : s.deposits.any (fun d => d.transactionHash == txHash) = false) :
    depositTokens coin address amount txHash network bn target s (some DepStep.commitTx) =
      ({ s with
          treasury := some (updateTreasuryBalance s.treasury (toLowerCase coin) amount true)
          walletBalances := (findOrCreateWalletBalance s.walletBalances wallet.userRef).1
          histories := updateUserWalletHistory s.histories wallet.userRef (toLowerCase coin) amount true
          redis := setEntry s.redis (untilSignatureKey target) txHash }, .error) := by
  simp [depositTokens, hw, hd]

/-- C4 amended: the until-signature cursor is written immediately before the
transaction commit, not after it (and the no-op paths write it before
aborting): on any deposit run that reaches the commit and fails there, the
cursor key already holds the observed transaction hash while no Deposit
record was committed.  The ledger idempotency check, not the cursor, is what
guarantees correctness on replay. -/
theorem cursor_written_before_commit (coin address : String) (amount : Int)
    (txHash network : String) (bn : Nat) (target : String) (s : St)
    (wallet : WalletAddressRec)
    (hw : s.walletAddresses.find? (fun w => w.address == address) = some wallet)
    (hd : s.deposits.any (fun d => d.transactionHash == txHash) = false) :
    (depositTokens coin address amount txHash network bn target s (some DepStep.commitTx)).2 = .error ∧
    getEntry (depositTokens coin address amount txHash network bn target s (some DepStep.commitTx)).1.redis
      (untilSignatureKey target) = some txHash ∧
    (depositTokens coin address amount txHash network bn target s (some DepStep.commitTx)).1.deposits = s.deposits := by
  rw [depositTokens_commitFail coin address amount txHash network bn target s wallet hw hd]
  exact ⟨rfl, getEntry_setEntry_self s.redis (untilSignatureKey target) txHash, rfl⟩

/-- Witness for the amended C4 at a concrete failing commit. -/
theorem cursor_written_before_commit_witness :
    (depositTokens "sol" "addr2" 5 "tx4" "solana" 11 "tgt4" stC4 (some DepStep.commitTx)).2 = .error ∧
    getEntry (depositTokens "sol" "addr2" 5 "tx4" "solana" 11 "tgt4" stC4 (some DepStep.commitTx)).1.redis
      (untilSignatureKey "tgt4") = some "tx4" ∧
    (depositTokens "sol" "addr2" 5 "tx4" "solana" 11 "tgt4" stC4 (some DepStep.commitTx)).1.deposits = stC4.deposits :=
  cursor_written_before_commit "sol" "addr2" 5 "tx4" "solana" 11 "tgt4" stC4
    { address := "addr2", userRef := 3 } (by decide) (by decide)

/-! ### C6: balances stay non-negative and clamp at zero -/

theorem clamp_nonneg (cur a : Int) : 0 ≤ (if cur < a then 0 else cur - a) := by
  by_cases h : cur < a
  · simp [h]
  · simp [h]; omega

theorem treasury_update_deposit_nonNeg (t : Option BalMap) (c : String) (a : Int)
    (ht : treasuryNonNeg t) (ha : 0 ≤ a) :
    balNonNeg (updateTreasuryBalance t c a true) := by
  cases t with
  | some m => exact balNonNeg_setEntry ht c (add_nonneg (ht c) ha)
  | none =>
    apply balNonNeg_setEntry balNonNeg_nil c
    have h0 : mget ([] : BalMap) c = 0 := rfl
    simp [updateTreasuryBalance, h0, ha]

theorem treasury_update_withdraw_nonNeg (t : Option BalMap) (c : String) (a : Int)
    (ht : treasuryNonNeg t) :
    balNonNeg (updateTreasuryBalance t c a false) := by
  cases t with
  | some m => exact balNonNeg_setEntry ht c (clamp_nonneg _ _)
  | none => exact balNonNeg_setEntry balNonNeg_nil c (clamp_nonneg _ _)

theorem wbsNonNeg_findOrCreate (l : List WalletBalanceRec) (u : Nat)
    (h : wbsNonNeg l) : wbsNonNeg (findOrCreateWalletBalance l u).1 := by
  unfold findOrCreateWalletBalance
  cases hf : l.find? (fun wb => wb.userRef == u) with
  | some wb => exact h
  | none =>
    intro x hx
    rcases List.mem_cons.mp hx with rfl | hxl
    · exact ⟨balNonNeg_nil, balNonNeg_nil⟩
    · exact h x hxl

theorem wbsNonNeg_found (l : List WalletBalanceRec) (u : Nat) (h : wbsNonNeg l) :
    balNonNeg (findOrCreateWalletBalance l u).2.balances ∧
      balNonNeg (findOrCreateWalletBalance l u).2.fundingBalances := by
  unfold findOrCreateWalletBalance
  cases hf : l.find? (fun wb => wb.userRef == u) with
  | some wb => exact h wb (List.mem_of_find?_eq_some hf)
  | none => exact ⟨balNonNeg_nil, balNonNeg_nil⟩

theorem wbsNonNeg_save (l : List WalletBalanceRec) (wb : WalletBalanceRec)
    (h : wbsNonNeg l) (hb : balNonNeg wb.balances) (hf : balNonNeg wb.fundingBalances) :
    wbsNonNeg (saveWalletBalance l wb) := by
  intro x hx
  unfold saveWalletBalance at hx
  rcases List.mem_map.mp hx with ⟨y, hy, hxy⟩
  cases hcond : (y.userRef == wb.userRef) with
  | true =>
    rw [hcond] at hxy
    simp at hxy
    subst hxy
    exact ⟨hb, hf⟩
  | false =>
    rw [hcond] at hxy
    simp at hxy
    subst hxy
    exact h y hy

set_option maxHeartbeats 2000000 in
theorem stBalancesNonNeg_depositTokens (coin address : String) (amount : Int)
    (txHash network : String) (bn : Nat) (target : String) (s : St)
    (failAt : Option DepStep) (ha : 0 ≤ amount) (hs : stBalancesNonNeg s) :
    stBalancesNonNeg (depositTokens coin address amount txHash network bn target s failAt).1 := by
  obtain ⟨hT, hW⟩ := hs
  rcases hfw : s.walletAddresses.find? (fun w => w.address == address) with _ | wallet
  all_goals cases hdup : s.deposits.any (fun d => d.transactionHash == txHash)
  all_goals rcases failAt with _ | step
  all_goals try cases step
  all_goals simp [depositTokens, hfw, hdup]
  all_goals
    first
      | exact ⟨hT, hW⟩
      | exact ⟨treasury_update_deposit_nonNeg _ _ _ hT ha, hW⟩
      | exact ⟨treasury_update_deposit_nonNeg _ _ _ hT ha, wbsNonNeg_findOrCreate _ _ hW⟩
      | exact ⟨treasury_update_deposit_nonNeg _ _ _ hT ha,
          wbsNonNeg_save _ _ (wbsNonNeg_findOrCreate _ _ hW)
            (balNonNeg_setEntry (wbsNonNeg_found _ _ hW).1 _
              (add_nonneg ((wbsNonNeg_found _ _ hW).1 _) ha))
            (wbsNonNeg_found _ _ hW).2⟩

set_option maxHeartbeats 2000000 in
theorem stBalancesNonNeg_withdrawTokens (coin address : String) (amount : Int)
    (txHash network : String) (bn : Nat) (target : String) (s : St)
    (failAt : Option WdStep) (hs : stBalancesNonNeg s) :
    stBalancesNonNeg (withdrawTokens coin address amount txHash network bn target s failAt).1 := by
  obtain ⟨hT, hW⟩ := hs
  rcases hfw : s.walletAddresses.find? (fun w => w.address == address) with _ | wallet
  · rcases failAt with _ | step
    all_goals try cases step
    all_goals simp [withdrawTokens, hfw]
    all_goals exact ⟨hT, hW⟩
  rcases hpd : s.withdraws.find? (pendingMatch wallet.userRef network amount (toLowerCase coin)) with _ | wd
  all_goals rcases failAt with _ | step
  all_goals try cases step
  all_goals simp [withdrawTokens, hfw, hpd]
  all_goals
    first
      | exact ⟨hT, hW⟩
      | exact ⟨treasury_update_withdraw_nonNeg _ _ _ hT, hW⟩
      | exact ⟨treasury_update_withdraw_nonNeg _ _ _ hT, wbsNonNeg_findOrCreate _ _ hW⟩
      | exact ⟨treasury_update_withdraw_nonNeg _ _ _ hT,
          wbsNonNeg_save _ _ (wbsNonNeg_findOrCreate _ _ hW)
            (wbsNonNeg_found _ _ hW).1
            (balNonNeg_setEntry (wbsNonNeg_found _ _ hW).2 _ (clamp_nonneg _ _))⟩

/-- C6: starting from a state whose balances are all non-negative, every run
of `depositTokens` and `withdrawTokens` (any failure point included) leaves
every Treasury and WalletBalance entry non-negative; a withdrawal of more
than the current balance clamps the Treasury entry to 0 — no error is
raised and nothing goes negative — and on the matched-withdrawal path the
funding balance is likewise clamped rather than driven negative. -/
theorem balances_never_negative (coin address : String) (amount : Int)
    (txHash network : String) (bn : Nat) (target : String) (s : St)
    (failD : Option DepStep) (failW : Option WdStep)
    (wallet : WalletAddressRec) (wd : WithdrawRec) (t : BalMap) (c : String)
    (ha : 0 ≤ amount) (hs : stBalancesNonNeg s)
    (hlt : mget t c < amount)
    (hw : s.walletAddresses.find? (fun w => w.address == address) = some wallet)
    (hp : s.withdraws.find? (pendingMatch wallet.userRef network amount (toLowerCase coin)) = some wd) :
    stBalancesNonNeg (depositTokens coin address amount txHash network bn target s failD).1 ∧
    stBalancesNonNeg (withdrawTokens coin address amount txHash network bn target s failW).1 ∧
    mget (updateTreasuryBalance (some t) c amount false) c = 0 ∧
    userFunding (withdrawTokens coin address amount txHash network bn target s none).1
        wallet.userRef (toLowerCase coin) =
      (if userFunding s wallet.userRef (toLowerCase coin) < amount then 0
       else userFunding s wallet.userRef (toLowerCase coin) - amount) := by
  refine ⟨stBalancesNonNeg_depositTokens coin address amount txHash network bn target s failD ha hs,
    stBalancesNonNeg_withdrawTokens coin address amount txHash network bn target s failW hs,
    ?_, ?_⟩
  · simp [updateTreasuryBalance, hlt]
  · rw [withdrawTokens_ok coin address amount txHash network bn target s wallet wd hw hp]
    have huser : ((findOrCreateWalletBalance s.walletBalances wallet.userRef).2).userRef = wallet.userRef :=
      findOrCreate_userRef s.walletBalances wallet.userRef
    have hmem : ∃ x ∈ (findOrCreateWalletBalance s.walletBalances wallet.userRef).1,
        x.userRef = ({ (findOrCreateWalletBalance s.walletBalances wallet.userRef).2 with fundingBalances := (setEntry (findOrCreateWalletBalance s.walletBalances wallet.userRef).2.fundingBalances (toLowerCase coin) (if mget (findOrCreateWalletBalance s.walletBalances wallet.userRef).2.fundingBalances (toLowerCase coin) < amount then 0 else mget (findOrCreateWalletBalance s.walletBalances wallet.userRef).2.fundingBalances (toLowerCase coin) - amount)) } : WalletBalanceRec).userRef := by
      simpa [huser] using findOrCreate_mem s.walletBalances wallet.userRef
    have hf := find?_saveWalletBalance _ _ hmem
    have hbal := findOrCreate_fundingBalances s wallet.userRef (toLowerCase coin)
    simp only [userFunding] at hbal ⊢
    simp only [huser] at hf ⊢
    rw [hf]
    simp [hbal]

/-- Witness for C6 at a concrete over-large withdrawal. -/
theorem balances_never_negative_witness :
    stBalancesNonNeg (depositTokens "sol" "addr6" 30 "tx6" "solana" 2 "tgt" stC6 none).1 ∧
    stBalancesNonNeg (withdrawTokens "sol" "addr6" 30 "tx6" "solana" 2 "tgt" stC6 (some WdStep.commitTx)).1 ∧
    mget (updateTreasuryBalance (some [("sol", 10)]) "sol" 30 false) "sol" = 0 ∧
    userFunding (withdrawTokens "sol" "addr6" 30 "tx6" "solana" 2 "tgt" stC6 none).1 4 (toLowerCase "sol") =
      (if userFunding stC6 4 (toLowerCase "sol") < 30 then 0
       else userFunding stC6 4 (toLowerCase "sol") - 30) :=
  balances_never_negative "sol" "addr6" 30 "tx6" "solana" 2 "tgt" stC6 none (some WdStep.commitTx)
    { address := "addr6", userRef := 4 }
    { userRef := 4, trackingNumber := 1, toAddress := "addr6", amount := 30, transactionHash := none, coinType := "sol", status := WithdrawStatus.pending, network := "solana", blockNumber := none }
    [("sol", 10)] "sol" (by decide)
    (by
      constructor
      · intro k
        by_cases h : k = "sol"
        · subst h; decide
        · show (0:Int) ≤ mget [("sol", 10)] k
          simp [mget, getEntry, Ne.symm h]
      · intro wb hwb
        rcases List.mem_singleton.mp hwb with rfl
        constructor
        · exact balNonNeg_nil
        · intro k
          by_cases h : k = "sol"
          · subst h; decide
          · show (0:Int) ≤ mget [("sol", 20)] k
            simp [mget, getEntry, Ne.symm h])
    (by decide) (by decide) (by decide)

/-! ### C9: the catch-up scan pages by 1000 and processes oldest first -/

theorem dropWhile_append_all {α : Type} (p : α → Bool) (l₁ l₂ : List α)
    (h : ∀ a ∈ l₁, p a = true) : (l₁ ++ l₂).dropWhile p = l₂.dropWhile p := by
  induction l₁ with
  | nil => simp
  | cons a t ih =>
    have ha := h a (List.mem_cons_self a t)
    simp [List.dropWhile_cons, ha, ih (fun x hx => h x (List.mem_cons_of_mem a hx))]

theorem takeWhile_append_all {α : Type} (p : α → Bool) (l₁ l₂ : List α)
    (h : ∀ a ∈ l₁, p a = true) : (l₁ ++ l₂).takeWhile p = l₁ ++ l₂.takeWhile p := by
  induction l₁ with
  | nil => simp
  | cons a t ih =>
    have ha := h a (List.mem_cons_self a t)
    simp [List.takeWhile_cons, ha, ih (fun x hx => h x (List.mem_cons_of_mem a hx))]

theorem getLastD_append_singleton {α : Type} (l : List α) (x d : α) :
    (l ++ [x]).getLastD d = x := by
  induction l generalizing d with
  | nil => rfl
  | cons a t ih =>
    rw [List.cons_append, List.getLastD_cons]
    exact ih a

theorem sig_ne_of_nodup (pre suf : List SigInfo) (x : SigInfo)
    (hnd : ((pre ++ x :: suf).map (fun s => s.signature)).Nodup) :
    ∀ a ∈ pre, (a.signature != x.signature) = true := by
  intro a ha
  rw [List.map_append] at hnd
  have hdis := List.disjoint_of_nodup_append hnd
  have h1 : a.signature ∈ pre.map (fun s => s.signature) := List.mem_map_of_mem _ ha
  simp only [bne_iff_ne, ne_eq]
  intro hEq
  exact hdis h1 (by rw [hEq]; simp)

theorem sigAfter_decomp (pre suf : List SigInfo) (x : SigInfo)
    (hnd : ((pre ++ x :: suf).map (fun s => s.signature)).Nodup) :
    sigAfter (pre ++ x :: suf) (some x.signature) = suf := by
  show (((pre ++ x :: suf).dropWhile (fun y => y.signature != x.signature)).drop 1) = suf
  rw [dropWhile_append_all _ pre _ (sig_ne_of_nodup pre suf x hnd)]
  simp [List.dropWhile_cons]

theorem sigUpTo_drop (R tail : List SigInfo) (u : Option String) (n : Nat)
    (h : sigUpTo (R ++ tail) u = R) : sigUpTo (R.drop n ++ tail) u = R.drop n := by
  cases u with
  | none =>
    have htail : tail = [] := by simpa [sigUpTo] using h
    simp [sigUpTo, htail]
  | some u0 =>
    have h2 : (R ++ tail).takeWhile (fun x => x.signature != u0) = R := h
    have hall : ∀ a ∈ R, (a.signature != u0) = true := by
      intro a ha
      have hmem : a ∈ (R ++ tail).takeWhile (fun x => x.signature != u0) := by
        rw [h2]
        exact ha
      have hp := List.mem_takeWhile_imp hmem
      exact hp
    rw [takeWhile_append_all _ R tail hall] at h2
    have htail : tail.takeWhile (fun x => x.signature != u0) = [] := by
      have hlen := congrArg List.length h2
      simp only [List.length_append] at hlen
      have : (tail.takeWhile (fun x => x.signature != u0)).length = 0 := by omega
      exact List.length_eq_zero.mp this
    show ((R.drop n ++ tail).takeWhile (fun x => x.signature != u0)) = R.drop n
    rw [takeWhile_append_all _ (R.drop n) tail
      (fun a ha => hall a (List.mem_of_mem_drop ha)), htail, List.append_nil]

theorem getAllSignaturesLoop_spec (chain : List SigInfo) (u : Option String)
    (hnd : (chain.map (fun s => s.signature)).Nodup) :
    ∀ (fuel : Nat) (pre R tail acc : List SigInfo) (b : Option String),
      chain = pre ++ (R ++ tail) →
      sigAfter chain b = R ++ tail →
      sigUpTo (R ++ tail) u = R →
      R.length + 1 ≤ fuel →
      getAllSignaturesLoop chain u fuel acc b = acc ++ R := by
  intro fuel
  induction fuel with
  | zero =>
    intro pre R tail acc b _ _ _ h4
    omega
  | succ n ih =>
    intro pre R tail acc b h1 h2 h3 h4
    have hpage : getSignaturesForAddress chain b u 1000 = R.take 1000 := by
      unfold getSignaturesForAddress
      rw [h2, h3]
    simp only [getAllSignaturesLoop, hpage]
    cases R with
    | nil => simp
    | cons r R' =>
      have hlen0 : ((r :: R').take 1000).length ≠ 0 := by
        simp [List.length_take]
      rw [if_neg hlen0]
      by_cases hlt : ((r :: R').take 1000).length < 1000
      · rw [if_pos hlt]
        have hRlen : (r :: R').length ≤ 1000 := by
          rw [List.length_take] at hlt
          omega
        rw [List.take_of_length_le hRlen]
      · rw [if_neg hlt]
        have hRlen : 1000 ≤ (r :: R').length := by
          rw [List.length_take] at hlt
          omega
        have hne : (r :: R').take 1000 ≠ [] := by
          intro hc
          exact hlen0 (by rw [hc]; rfl)
        rcases List.eq_nil_or_concat ((r :: R').take 1000) with hc | ⟨P0, x, hPx⟩
        · exact absurd hc hne
        have hPx' : (r :: R').take 1000 = P0 ++ [x] := by
          simpa [List.concat_eq_append] using hPx
        have hlast : ((r :: R').take 1000).getLastD { signature := "", slot := 0, confirmationStatus := "" } = x := by
          rw [hPx']
          exact getLastD_append_singleton P0 x _
        have hch2 : chain = (pre ++ P0) ++ (x :: ((r :: R').drop 1000 ++ tail)) := by
          conv_lhs => rw [h1]
          conv_lhs => rw [← List.take_append_drop 1000 (r :: R'), hPx']
          simp [List.append_assoc]
        have hnd2 : (((pre ++ P0) ++ x :: ((r :: R').drop 1000 ++ tail)).map (fun s => s.signature)).Nodup := by
          rw [← hch2]
          exact hnd
        have hafter : sigAfter chain (some x.signature) = (r :: R').drop 1000 ++ tail := by
          rw [hch2]
          exact sigAfter_decomp _ _ _ hnd2
        have hupto : sigUpTo ((r :: R').drop 1000 ++ tail) u = (r :: R').drop 1000 :=
          sigUpTo_drop _ _ _ _ h3
        have hfuel : ((r :: R').drop 1000).length + 1 ≤ n := by
          rw [List.length_drop]
          simp only [List.length_cons] at h4 hRlen ⊢
          omega
        have hTD : (r :: R').take 1000 ++ ((r :: R').drop 1000 ++ tail) = (r :: R') ++ tail := by
          rw [← List.append_assoc, List.take_append_drop]
        have hch1 : chain = (pre ++ (r :: R').take 1000) ++ ((r :: R').drop 1000 ++ tail) := by
          rw [h1, List.append_assoc, hTD]
        have hrec := ih (pre ++ (r :: R').take 1000) ((r :: R').drop 1000) tail
          (acc ++ (r :: R').take 1000) (some x.signature) hch1 hafter hupto hfuel
        rw [hlast, hrec, List.append_assoc, List.take_append_drop]

/-- C9: given distinct signatures and a newest-first RPC answer, every page
the catch-up scan fetches has at most 1000 entries, `getAllSignatures`
returns exactly the signatures above the persisted until cursor in
oldest-first order, and `processAllTransactions` hands the confirmed or
finalized transfers to the engine in ascending-slot order. -/
theorem solana_scan_pages_and_order (chain : List SigInfo) (u : Option String)
    (hnd : (chain.map (fun s => s.signature)).Nodup)
    (hsorted : chain.Pairwise (fun a b => b.slot ≤ a.slot)) :
    (∀ b, (getSignaturesForAddress chain b u 1000).length ≤ 1000) ∧
    getAllSignatures chain u = (sigUpTo chain u).reverse ∧
    (processAllTransactions chain u).Pairwise (fun a b => a.slot ≤ b.slot) := by
  have hexists : ∃ t, sigUpTo chain u ++ t = chain := by
    cases u with
    | none => exact ⟨[], by simp [sigUpTo]⟩
    | some u0 => exact List.takeWhile_prefix _
  obtain ⟨tail, htail⟩ := hexists
  have hmain : getAllSignatures chain u = (sigUpTo chain u).reverse := by
    unfold getAllSignatures
    congr 1
    have h1 : chain = [] ++ (sigUpTo chain u ++ tail) := by
      simp [htail]
    have h2 : sigAfter chain none = sigUpTo chain u ++ tail := by
      show chain = sigUpTo chain u ++ tail
      exact htail.symm
    have h3 : sigUpTo (sigUpTo chain u ++ tail) u = sigUpTo chain u := by
      rw [htail]
    have h4 : (sigUpTo chain u).length + 1 ≤ chain.length + 1 := by
      have := List.IsPrefix.length_le ⟨tail, htail⟩
      omega
    simpa using getAllSignaturesLoop_spec chain u hnd (chain.length + 1)
      [] (sigUpTo chain u) tail [] none h1 h2 h3 h4
  refine ⟨?_, hmain, ?_⟩
  · intro b
    unfold getSignaturesForAddress
    rw [List.length_take]
    exact Nat.min_le_left _ _
  · unfold processAllTransactions
    rw [hmain]
    have hsub : (sigUpTo chain u).Sublist chain := by
      cases u with
      | none => exact List.Sublist.refl _
      | some u0 => exact (List.takeWhile_prefix _).sublist
    have hrev : ((sigUpTo chain u).reverse).Pairwise (fun a b => a.slot ≤ b.slot) := by
      rw [List.pairwise_reverse]
      exact hsorted.sublist hsub
    exact hrev.filter _

/-- Witness for C9 at a concrete three-entry chain with cursor `a`. -/
theorem solana_scan_pages_and_order_witness :
    (getSignaturesForAddress chainC9 none (some "a") 1000).length ≤ 1000 ∧
    getAllSignatures chainC9 (some "a") = (sigUpTo chainC9 (some "a")).reverse ∧
    (processAllTransactions chainC9 (some "a")).Pairwise (fun a b => a.slot ≤ b.slot) :=
  ⟨(solana_scan_pages_and_order chainC9 (some "a") (by decide) (by decide)).1 none,
   (solana_scan_pages_and_order chainC9 (some "a") (by decide) (by decide)).2.1,
   (solana_scan_pages_and_order chainC9 (some "a") (by decide) (by decide)).2.2⟩

end FundManagement
